import Mathlib

/-!
A shallow embedding of the `myshell` command interpreter (`src/myshell.c`)
together with theorems about its parsing, dispatch and handler behaviour.

Strings are modelled as `List Char` (the C buffers hold no interior NUL
bytes on the paths considered here, so `strnlen` is the list length capped
at the buffer size).  Machine integers that matter are modelled as `Nat`
or `Int`.  OS calls (`chdir`, `opendir`/`readdir`/`closedir`, `open`/`read`
/`close`, `mkdir`, `rmdir`, `unlink`, `getcwd`, `stat`, `getpwuid`) are
modelled by explicit oracle parameters describing their outcomes, and the
observable effects of a handler (writes to `stdout`, writes to `stderr`,
the process working directory) are threaded through an explicit `World`
state.
-/

namespace MyShell

/-- Model of C `isspace` on (the byte of) a character: space (32) or one of
the control characters 9..13 (`\t`, `\n`, vertical tab, form feed, `\r`). -/
def isspace (c : Char) : Bool := c.toNat = 32 || (9 ≤ c.toNat && c.toNat ≤ 13)

/-- Matching the literal (non-whitespace) directive characters of a `sscanf`
format against the front of the input: each literal character must equal the
next input character; on success the unconsumed input is returned. -/
def litMatch : List Char → List Char → Option (List Char)
  | [], rest => some rest
  | _ :: _, [] => none
  | v :: vs, b :: bs => if v = b then litMatch vs bs else none

/-- Model of `sscanf(buf, "<verb> %s", filename) == 1` as used throughout
`main` and `execute_command` in `myshell.c`: the verb's characters are
matched literally at the very start of `buf` (a literal directive does not
skip leading whitespace), then the whitespace directive and `%s` together
skip any run of whitespace, and `%s` must then capture a nonempty maximal
run of non-whitespace characters.  Returns the captured token, or `none`
when the call does not return 1. -/
def scanVerbArg (v : List Char) (buf : List Char) : Option (List Char) :=
  match litMatch v buf with
  | none => none
  | some rest =>
    match rest.dropWhile isspace with
    | [] => none
    | c :: cs => some ((c :: cs).takeWhile (fun x => !isspace x))

/-- The dispatch decision taken for one input line: which handler is invoked
with which argument, or that the line is the special `exit` command, an
unrecognized command (diagnostic printed), or the silent empty line. -/
inductive Cmd
  | cd (arg : List Char)
  | exitSh
  | cat (arg : List Char)
  | stat (arg : List Char)
  | mkdir (arg : List Char)
  | rmdir (arg : List Char)
  | rm (arg : List Char)
  | ls (arg : List Char)
  | pwd
  | invalid (buf : List Char)
  | silent
deriving DecidableEq

/-- The dispatch decision of `execute_command` (myshell.c:379-417).  The C
function both decides the handler and runs it; the embedding separates the
decision (this function) from the handler effects (`applyCmd` below).  The
sequential `sscanf` tests are tried in source order: `cat`, `stat`, `mkdir`,
`rmdir`, `rm`, then `ls` (with `"."` substituted when the bare string equals
`"ls"`, since `filename` was `bzero`ed in `main` and no earlier conversion
succeeded), then the exact-match `pwd`, then the invalid-command report,
which is silent for an empty buffer (`strnlen(buffer, BUFFER_SIZE) != 0`). -/
def execute_command (buf : List Char) : Cmd :=
  match scanVerbArg "cat".toList buf with
  | some t => Cmd.cat t
  | none =>
  match scanVerbArg "stat".toList buf with
  | some t => Cmd.stat t
  | none =>
  match scanVerbArg "mkdir".toList buf with
  | some t => Cmd.mkdir t
  | none =>
  match scanVerbArg "rmdir".toList buf with
  | some t => Cmd.rmdir t
  | none =>
  match scanVerbArg "rm".toList buf with
  | some t => Cmd.rm t
  | none =>
  match scanVerbArg "ls".toList buf with
  | some t => Cmd.ls t
  | none =>
  if buf = "ls".toList then Cmd.ls ['.']
  else if buf = "pwd".toList then Cmd.pwd
  else if buf.length ≠ 0 then Cmd.invalid buf
  else Cmd.silent

/-- The dispatch decision of the loop body of `main` (myshell.c:127-135) on
a normalized (trailing-whitespace-stripped) line: `cd` is recognized first,
either via `sscanf(buffer, "cd %s", filename) == 1` or via an exact
`strncmp(buffer, "cd", BUFFER_SIZE)` match (in which case the `bzero`ed
`filename` — the empty string — is passed to `do_cd`); next the exact match
`exit`; everything else goes to `execute_command`. -/
def dispatchLine (buf : List Char) : Cmd :=
  match scanVerbArg "cd".toList buf with
  | some t => Cmd.cd t
  | none =>
    if buf = "cd".toList then Cmd.cd []
    else if buf = "exit".toList then Cmd.exitSh
    else execute_command buf

/-- The first whitespace-delimited token of a line (the specification's
notion of the command verb). -/
def firstToken (l : List Char) : List Char :=
  (l.dropWhile isspace).takeWhile (fun x => !isspace x)

/-- The verbs recognized by the interpreter, per the specification's command
table. -/
def recognizedVerbs : List (List Char) :=
  ["cd", "exit", "cat", "stat", "mkdir", "rmdir", "rm", "ls", "pwd"].map String.toList

/-! ## Observable output

Each `fprintf`/`printf`/`fwrite` call of a handler is modelled as one
abstract message appended to the relevant stream of the `World`.  Message
constructors carry the data the format arguments carry; the fixed format
text itself is not re-modelled (with the exception of `cat`'s raw byte
output, recovered by `msgBytes` below, which is what claim-level byte
counting needs). -/
inductive Msg
  | cdErr
  | lsOpenErr (dirname : List Char)
  | lsLine (name : List Char) (fod : List Char) (ftype : List Char) (size : Int)
  | lsPathTooLong (path : List Char)
  | lsLstatErr (path : List Char)
  | lsReadErr (dir : List Char)
  | lsCloseErr (dir : List Char)
  | catOpenErr (fname : List Char)
  | catReadErr (fname : List Char)
  | catChunk (fresh : List Nat)
  | catCloseErr (fname : List Char)
  | newlineOut
  | mkdirErr (dirname : List Char)
  | rmdirErr (dirname : List Char)
  | rmErr (fname : List Char)
  | pwdLine (dir : List Char)
  | pwdErr
  | statErrOut (fname : List Char)
  | statFile (fname : List Char)
  | statSize (blksize : Int)
  | statBlocks (blocks : Int)
  | statLinks (nlink : Int)
  | statInode (ino : Int)
  | statMtime (t : Int)
  | invalidCmd (buf : List Char)
deriving DecidableEq

/-- The observable state threaded through a handler invocation: the process
working directory, the sequence of messages written to `stdout`, and the
sequence written to `stderr`. -/
structure World where
  cwd : List Char
  out : List Msg
  err : List Msg
deriving DecidableEq

/-- A world with empty output streams and an empty working-directory name. -/
def emptyWorld : World := ⟨[], [], []⟩

/-! ## Handlers -/

/-- Model of `do_cd` (myshell.c:148-162).  `home` stands for
`getpwuid(getuid())->pw_dir`, the home directory of the invoking user's
user ID in the OS user database; `ok` is the oracle for `chdir` success.
If the argument has length zero (`strnlen(dirname, MAX_PATH_LENGTH) == 0`)
the home directory is copied over it and becomes the target.  On `chdir`
success the process working directory becomes the target (the paths
reaching this handler from `main` are taken as resolving to themselves);
on failure `cd: <strerror>` goes to `stderr` and the result is -1. -/
def do_cd (home : List Char) (ok : List Char → Bool) (dirname : List Char)
    (w : World) : World × Int :=
  let target := if dirname.length = 0 then home else dirname
  if ok target then ({ w with cwd := target }, 0)
  else ({ w with err := w.err ++ [Msg.cdErr] }, -1)

/-- Model of the helper `file_or_dir` (myshell.c:56-59):
`S_ISDIR(mode)` selects `"DIR"`, anything else `"FILE"`. -/
def file_or_dir (mode : Nat) : List Char :=
  if mode &&& 0xF000 = 0x4000 then "DIR".toList else "FILE".toList

/-- Model of the helper `ftype_string` (myshell.c:66-79): the switch on
`mode & S_IFMT` with the POSIX file-type bit patterns. -/
def ftype_string (mode : Nat) : List Char :=
  if mode &&& 0xF000 = 0x8000 then "regular".toList
  else if mode &&& 0xF000 = 0x4000 then "directory".toList
  else if mode &&& 0xF000 = 0xA000 then "symlink".toList
  else if mode &&& 0xF000 = 0x2000 then "char-device".toList
  else if mode &&& 0xF000 = 0x6000 then "block-device".toList
  else if mode &&& 0xF000 = 0x1000 then "fifo".toList
  else if mode &&& 0xF000 = 0xC000 then "socket".toList
  else "unknown".toList

/-- One entry produced by the directory stream in `do_ls`'s `readdir` loop:
either the joined path fit and `lstat` succeeded (with the entry's mode and
size), or `snprintf` reported truncation (`path too long`, entry skipped),
or `lstat` failed with error code `e` (entry skipped; `lstat` sets `errno`
to `e`, which is nonzero for a real failure). -/
inductive LsEnt
  | ok (name : List Char) (mode : Nat) (size : Int)
  | tooLong (name : List Char)
  | statFail (name : List Char) (e : Nat)
deriving DecidableEq

/-- The behaviour of a directory stream: the entries returned by successive
`readdir` calls, and how the stream ends — `none` models `readdir`
returning `NULL` with `errno` untouched (clean exhaustion), `some e` models
`readdir` returning `NULL` after setting `errno` to the (nonzero) error
code `e`. -/
structure LsStream where
  entries : List LsEnt
  endErr : Option Nat
deriving DecidableEq

/-- The value of `errno` after `do_ls`'s iteration loop has consumed the
given entries, starting from the explicit `errno = 0` at myshell.c:185.
A successful `lstat`/`snprintf`/`printf` leaves `errno` unchanged; a failed
`lstat` sets it to that failure's code and nothing afterwards resets it. -/
def lsErrno (es : List LsEnt) : Nat :=
  es.foldl (fun acc ent =>
    match ent with
    | LsEnt.statFail _ e => e
    | _ => acc) 0

/-- The per-entry output of `do_ls`'s loop body (myshell.c:187-213): a
formatted line on `stdout` for each entry whose `lstat` succeeded, and a
skip warning on `stderr` for each truncated path or failed `lstat` (the
warnings name the joined path `dir ++ "/" ++ name`). -/
def lsIter (dir : List Char) : List LsEnt → World → World
  | [], w => w
  | LsEnt.ok n m s :: es, w =>
      lsIter dir es
        { w with out := w.out ++ [Msg.lsLine n (file_or_dir m) (ftype_string m) s] }
  | LsEnt.tooLong n :: es, w =>
      lsIter dir es { w with err := w.err ++ [Msg.lsPathTooLong (dir ++ '/' :: n)] }
  | LsEnt.statFail n _ :: es, w =>
      lsIter dir es { w with err := w.err ++ [Msg.lsLstatErr (dir ++ '/' :: n)] }

/-- Model of `do_ls` (myshell.c:172-229).  `openRes` is the `opendir`
outcome (`none` = failure); `closeOk` the `closedir` outcome.  The argument
is normalized to `"."` when null/empty.  After the loop the single C
`errno` variable holds the stream-end code when `readdir` failed, else
whatever the entry iteration left in it; the post-loop check
`errno != 0` (myshell.c:216) reports `Error reading directory` and returns
-1 whenever that value is nonzero.  Otherwise a failing `closedir` is
reported and returns -1, and a clean close returns 0. -/
def do_ls (openRes : Option LsStream) (closeOk : Bool) (dirname : List Char)
    (w : World) : World × Int :=
  let dir := if dirname.length = 0 then ".".toList else dirname
  match openRes with
  | none => ({ w with err := w.err ++ [Msg.lsOpenErr dirname] }, -1)
  | some s =>
    let w1 := lsIter dir s.entries w
    let errnoFinal := match s.endErr with
      | some e => e
      | none => lsErrno s.entries
    if errnoFinal ≠ 0 then ({ w1 with err := w1.err ++ [Msg.lsReadErr dir] }, -1)
    else if closeOk then (w1, 0)
    else ({ w1 with err := w1.err ++ [Msg.lsCloseErr dir] }, -1)

/-- The behaviour of the reads performed by `do_cat`'s loop: `chunks` are
the byte lists returned by successive successful `read` calls (each
nonempty and at most `BUFFER_SIZE = 256` bytes for a real file), and
`endErr` tells how the stream ends — `true`: the next `read` returns a
negative count (read error); `false`: it returns 0 (end of stream). -/
structure CatReads where
  chunks : List (List Nat)
  endErr : Bool
deriving DecidableEq

/-- How `do_cat`'s read loop exited: via the `countr < 0` error branch or
via the `countr == 0` end-of-stream branch. -/
inductive CatEnd
  | readErr
  | eof
deriving DecidableEq

/-- The loop of `do_cat` (myshell.c:248-267).  Each successful read of a
chunk `c` is followed by `fwrite(buffer, BUFFER_SIZE, BUFFER_SIZE - 1,
stdout)`, an output of `256 * 255 = 65280` bytes of which only the first
`c.length` are the bytes just read (the rest are stale buffer bytes and
out-of-bounds memory after the 256-byte buffer) — recorded as
`Msg.catChunk c`.  A read error appends the `stderr` diagnostic and exits
with `CatEnd.readErr`; a zero-byte read prints the trailing newline and
exits with `CatEnd.eof`. -/
def catLoop (fname : List Char) : List (List Nat) → Bool → World → World × CatEnd
  | [], endErr, w =>
    if endErr then ({ w with err := w.err ++ [Msg.catReadErr fname] }, CatEnd.readErr)
    else ({ w with out := w.out ++ [Msg.newlineOut] }, CatEnd.eof)
  | c :: cs, endErr, w =>
    catLoop fname cs endErr { w with out := w.out ++ [Msg.catChunk c] }

/-- Model of `do_cat` (myshell.c:236-278).  The third component records
whether every file descriptor opened by the invocation has been released
when the handler returns.  On open failure (`close(sourcefd)` with a
negative descriptor is a no-op and no descriptor was opened) it is
trivially `true`; on a read error the C code returns -1 *without* closing
`sourcefd`, so it is `false`; on end of stream the descriptor is closed
(twice — the second `close` fails harmlessly with `EBADF`).  The statement
`exit-1;` on the close-failure path is the expression `exit - 1`, a no-op,
not a call.  The C function has no `return` statement on the
end-of-stream paths; the intended success value 0 (per the function's doc
comment) is used for the modelled result there. -/
def do_cat (openOk : Bool) (closeOk : Bool) (r : CatReads) (fname : List Char)
    (w : World) : World × Int × Bool :=
  if openOk then
    match catLoop fname r.chunks r.endErr w with
    | (w1, CatEnd.readErr) => (w1, -1, false)
    | (w1, CatEnd.eof) =>
      if closeOk then (w1, 0, true)
      else ({ w1 with err := w1.err ++ [Msg.catCloseErr fname] }, 0, true)
  else ({ w with err := w.err ++ [Msg.catOpenErr fname] }, -1, true)

/-- Model of `do_mkdir` (myshell.c:285-295): one `mkdir` call, mapped to
0 or -1 with the `stderr` diagnostic on failure. -/
def do_mkdir (ok : Bool) (dirname : List Char) (w : World) : World × Int :=
  if ok then (w, 0) else ({ w with err := w.err ++ [Msg.mkdirErr dirname] }, -1)

/-- Model of `do_rmdir` (myshell.c:302-310): one `rmdir` call, mapped to
0 or -1 with the `stderr` diagnostic on failure. -/
def do_rmdir (ok : Bool) (dirname : List Char) (w : World) : World × Int :=
  if ok then (w, 0) else ({ w with err := w.err ++ [Msg.rmdirErr dirname] }, -1)

/-- Model of `do_rm` (myshell.c:337-345): one `unlink` call, mapped to 0 or -1
with the `stderr` diagnostic on failure. -/
def do_rm (ok : Bool) (fname : List Char) (w : World) : World × Int :=
  if ok then (w, 0) else ({ w with err := w.err ++ [Msg.rmErr fname] }, -1)

/-- Model of `do_pwd` (myshell.c:316-329): on `getcwd` success the current
directory is printed to `stdout` (reusing the coloured prompt format)
followed by a newline, result 0; on failure the diagnostic goes to
`stderr`, result -1. -/
def do_pwd (getcwdOk : Bool) (w : World) : World × Int :=
  if getcwdOk then
    ({ w with out := w.out ++ [Msg.pwdLine w.cwd, Msg.newlineOut] }, 0)
  else ({ w with err := w.err ++ [Msg.pwdErr] }, -1)

/-- The metadata fields `do_stat` reports. -/
structure StatMeta where
  blksize : Int
  blocks : Int
  nlink : Int
  ino : Int
  mtime : Int
deriving DecidableEq

/-- Model of `do_stat` (myshell.c:352-372).  `res` is the `stat` outcome
(the call is made twice in the C code; both see the same file).  On failure
the diagnostic `Error outputting stat: ...` is written with
`fprintf(stdout, ...)` — to the standard *output* stream — and the result
is -1.  On success the five report lines go to `stdout` (the `Size:` field
carries `st_blksize`); the C function then ends without a `return`
statement, and the intended success value 0 is used for the modelled
result. -/
def do_stat (res : Option StatMeta) (fname : List Char) (w : World) : World × Int :=
  match res with
  | none => ({ w with out := w.out ++ [Msg.statErrOut fname] }, -1)
  | some m =>
    ({ w with out := w.out ++
        [Msg.statFile fname, Msg.statSize m.blksize, Msg.statBlocks m.blocks,
         Msg.statLinks m.nlink, Msg.statInode m.ino, Msg.statMtime m.mtime] }, 0)

/-! ## Environment and dispatch of effects -/

/-- The oracle for every OS call a handler can make, indexed by the path
argument where the call takes one. -/
structure Env where
  home : List Char
  chdirOk : List Char → Bool
  lsOpen : List Char → Option LsStream
  lsCloseOk : List Char → Bool
  catOpenOk : List Char → Bool
  catCloseOk : List Char → Bool
  catReads : List Char → CatReads
  mkdirOk : List Char → Bool
  rmdirOk : List Char → Bool
  rmOk : List Char → Bool
  getcwdOk : Bool
  statRes : List Char → Option StatMeta

/-- A concrete environment (every OS call succeeds where a success value is
needed, `stat` fails, streams are empty), used to instantiate universally
quantified theorems at a closed input. -/
def defaultEnv : Env where
  home := "/root".toList
  chdirOk := fun _ => true
  lsOpen := fun _ => some ⟨[], none⟩
  lsCloseOk := fun _ => true
  catOpenOk := fun _ => true
  catCloseOk := fun _ => true
  catReads := fun _ => ⟨[], false⟩
  mkdirOk := fun _ => true
  rmdirOk := fun _ => true
  rmOk := fun _ => true
  getcwdOk := true
  statRes := fun _ => none

/-- Running the handler a dispatch decision selects, with the effects the C
handlers have on the `World`.  `Cmd.exitSh` never reaches a handler (the
dispatch loop terminates instead, see `runShell`); `Cmd.invalid` is the
`No such file or directory` report of `execute_command` (myshell.c:413-414)
and `Cmd.silent` its silent -1 for an empty buffer. -/
def applyCmd (env : Env) (c : Cmd) (w : World) : World × Int :=
  match c with
  | Cmd.cd a => do_cd env.home env.chdirOk a w
  | Cmd.exitSh => (w, 0)
  | Cmd.cat a =>
    let r := do_cat (env.catOpenOk a) (env.catCloseOk a) (env.catReads a) a w
    (r.1, r.2.1)
  | Cmd.stat a => do_stat (env.statRes a) a w
  | Cmd.mkdir a => do_mkdir (env.mkdirOk a) a w
  | Cmd.rmdir a => do_rmdir (env.rmdirOk a) a w
  | Cmd.rm a => do_rm (env.rmOk a) a w
  | Cmd.ls a => do_ls (env.lsOpen a) (env.lsCloseOk a) a w
  | Cmd.pwd => do_pwd env.getcwdOk w
  | Cmd.invalid b => ({ w with err := w.err ++ [Msg.invalidCmd b] }, -1)
  | Cmd.silent => (w, -1)

/-! ## The read–parse–dispatch loop -/

/-- The observable effect of `strip_trailing_whitespace` on the line buffer:
trailing whitespace characters are removed.  (In the running program the
backwards scan that produces this effect steps one position below index 0
on an empty or all-whitespace line and stops only because the byte stored
in front of the static buffer is 0; that out-of-bounds scan is modelled
separately by `stripScanTrace` below.) -/
def strip_trailing_whitespace (l : List Char) : List Char :=
  (l.reverse.dropWhile isspace).reverse

/-- The dispatch loop of `main` (myshell.c:113-140) run on a list of
available input lines (each a line `fgets` delivers, with its newline; a
`fgets` of at most `BUFFER_SIZE` applies, longer input arrives as several
lines).  Each line is normalized and dispatched; the return value of
`do_cd` / `execute_command` is discarded, exactly as in the C loop.  The
loop stops only when a line dispatches to `exit`, in which case the process
exits with `EXIT_SUCCESS` (modelled as `some 0`); exhausting the list
leaves the loop still running (`none` — on a real end of input the C loop
spins on `fgets` returning `NULL` and never terminates). -/
def runShell (env : Env) : List (List Char) → World → Option Nat × World
  | [], w => (none, w)
  | l :: ls, w =>
    let b := strip_trailing_whitespace l
    if dispatchLine b = Cmd.exitSh then (some 0, w)
    else runShell env ls (applyCmd env (dispatchLine b) w).1

/-! ## The trailing-whitespace scan, at the index level -/

/-- Model of C `strnlen` for a buffer holding the given characters and no
interior NUL byte: the length capped at `maxlen`. -/
def strnlen (l : List Char) (maxlen : Nat) : Nat := min l.length maxlen

/-- The indices read by the scan loop of `strip_trailing_whitespace`
(myshell.c:89-94), over an arbitrary memory `mem` (the buffer contents at
indices `0 ≤ i < len`, and whatever bytes precede the static buffer at
negative indices).  The loop starts at `i = strnlen(string, BUFFER_SIZE) -
1` and repeats `string[i--] = 0` while `isspace(string[i])`; every loop
test reads `mem i` at the current index, so the trace records `i` and
continues at `i - 1` while the test holds.  `fuel` bounds the number of
modelled iterations (the C loop itself has no bound below the buffer). -/
def stripScanTrace (mem : Int → Char) : Nat → Int → List Int
  | 0, _ => []
  | fuel + 1, i =>
    i :: (if isspace (mem i) then stripScanTrace mem fuel (i - 1) else [])

/-- A concrete memory whose every byte is NUL (in particular not
whitespace). -/
def memZero : Int → Char := fun _ => Char.ofNat 0

/-! ## Byte-level view of `cat` output -/

/-- The bytes a single message puts on `stdout`, for the messages `do_cat`
produces: a `catChunk c` is an `fwrite` of `256 * 255 = 65280` bytes of
which the first `c.length` are the freshly read file bytes and the rest
(`some` of stale buffer content, most of adjacent memory) are not
determined by the file — modelled as `none`.  The trailing
`fprintf(stdout, "\n")` is the single byte 10.  Messages of other handlers
are not byte-modelled. -/
def msgBytes : Msg → List (Option Nat)
  | Msg.catChunk c => c.map some ++ List.replicate (65280 - c.length) none
  | Msg.newlineOut => [some 10]
  | _ => []

/-- The byte stream on `stdout` corresponding to a message list. -/
def outBytes (l : List Msg) : List (Option Nat) := (l.map msgBytes).flatten

/-- The successive `read(sourcefd, buffer, BUFFER_SIZE)` results for a
regular file holding the given bytes: maximal chunks of 256 bytes.  The
fuel argument of `chunksAux` (the list length suffices) only drives the
structural recursion. -/
def chunksAux : Nat → List Nat → List (List Nat)
  | 0, _ => []
  | _, [] => []
  | fuel + 1, l@(_ :: _) => l.take 256 :: chunksAux fuel (l.drop 256)

/-- The chunk decomposition a regular file's reads produce. -/
def chunks256 (l : List Nat) : List (List Nat) := chunksAux l.length l

/-! ## Helper lemmas -/

/-- Dropping a predicate-satisfying run commutes past an all-satisfying
front segment. -/
theorem dropWhile_append_of_sat {p : Char → Bool} (w l : List Char)
    (hw : ∀ c ∈ w, p c = true) :
    (w ++ l).dropWhile p = l.dropWhile p := by
  induction w with
  | nil => rfl
  | cons c cs ih =>
    simp only [List.cons_append, List.dropWhile_cons, hw c (by simp), if_true]
    exact ih (fun x hx => hw x (by simp [hx]))

/-- Taking a predicate-satisfying run from an all-satisfying segment
followed by an empty list or a failing head yields exactly that segment. -/
theorem takeWhile_append_of_sat {q : Char → Bool} (a rest : List Char)
    (ha : ∀ c ∈ a, q c = true)
    (hrest : rest = [] ∨ ∃ c t, rest = c :: t ∧ q c = false) :
    (a ++ rest).takeWhile q = a := by
  induction a with
  | nil =>
    rcases hrest with h | ⟨c, t, h, hq⟩
    · simp [h]
    · simp [h, List.takeWhile_cons, hq]
  | cons x xs ih =>
    simp only [List.cons_append, List.takeWhile_cons, ha x (by simp), if_true]
    rw [ih (fun c hc => ha c (by simp [hc]))]

/-- The entry loop of `do_ls` never touches the working directory. -/
theorem lsIter_cwd (dir : List Char) (es : List LsEnt) (w : World) :
    (lsIter dir es w).cwd = w.cwd := by
  induction es generalizing w with
  | nil => rfl
  | cons e es ih => cases e <;> simp [lsIter, ih]

/-- The read loop of `do_cat` never touches the working directory. -/
theorem catLoop_cwd (f : List Char) (cs : List (List Nat)) (e : Bool) (w : World) :
    ((catLoop f cs e w).1).cwd = w.cwd := by
  induction cs generalizing w with
  | nil => cases e <;> rfl
  | cons c cs ih => simpa [catLoop] using ih _

/-! ## Claims -/

/-- C1: on a readable one-byte file (the byte 65, so N = 1), `do_cat` does
not write exactly those N bytes followed by one newline: the single read of
one byte is followed by an `fwrite` of the full `256 * 255`-byte area, so
the output stream carries 65281 bytes instead of the 2 bytes
(the file byte and the newline) the claim requires. -/
theorem cat_writes_full_buffer_per_chunk :
    ((do_cat true true ⟨chunks256 [65], false⟩ "f".toList emptyWorld).1).out
      = [Msg.catChunk [65], Msg.newlineOut] ∧
    (outBytes [Msg.catChunk [65], Msg.newlineOut]).length = 65281 ∧
    outBytes [Msg.catChunk [65], Msg.newlineOut] ≠ [some 65, some 10] := by
  have hexp : outBytes [Msg.catChunk [65], Msg.newlineOut]
      = ([some 65] ++ List.replicate 65279 none) ++ ([some 10] ++ []) := rfl
  have hlen : (outBytes [Msg.catChunk [65], Msg.newlineOut]).length = 65281 := by
    rw [hexp, List.length_append, List.length_append, List.length_replicate]
    rfl
  refine ⟨by decide, hlen, ?_⟩
  intro h
  have hl := congrArg List.length h
  rw [hlen] at hl
  exact absurd hl (by decide)

/-- C2 counterexample: the line `catfoo`, whose first whitespace-delimited
token is `catfoo` — not a recognized verb — is nevertheless dispatched to
the `cat` handler with argument `foo`, because `sscanf(buffer, "cat %s",
filename)` matches the verb as a literal prefix rather than as a token. -/
theorem catfoo_dispatches_to_cat :
    dispatchLine "catfoo".toList = Cmd.cat "foo".toList ∧
    firstToken "catfoo".toList = "catfoo".toList ∧
    firstToken "catfoo".toList ∉ recognizedVerbs := by decide

/-- C2 amended: dispatch works by literal-prefix matching, not first-token
equality.  Any line of the shape `"cat" ++ whitespace* ++ token ++ rest`
(the whitespace run may be empty, so the token may be glued directly onto
the verb, and `rest` — everything from the next whitespace character on —
is ignored) is dispatched to the `cat` handler with exactly that token as
its argument. -/
theorem cat_literal_prefix_dispatch (ws a rest : List Char)
    (hws : ∀ c ∈ ws, isspace c = true)
    (ha : a ≠ [])
    (hna : ∀ c ∈ a, isspace c = false)
    (hrest : rest = [] ∨ ∃ c t, rest = c :: t ∧ isspace c = true) :
    dispatchLine ("cat".toList ++ ws ++ a ++ rest) = Cmd.cat a := by
  obtain ⟨a0, a', rfl⟩ := List.exists_cons_of_ne_nil ha
  have hdrop : (ws ++ a0 :: (a' ++ rest)).dropWhile isspace = a0 :: (a' ++ rest) := by
    rw [dropWhile_append_of_sat ws _ hws]
    simp [List.dropWhile_cons, hna a0 (by simp)]
  have htake : (a0 :: (a' ++ rest)).takeWhile (fun x => !isspace x) = a0 :: a' := by
    show ((a0 :: a') ++ rest).takeWhile (fun x => !isspace x) = a0 :: a'
    refine takeWhile_append_of_sat _ _ (fun c hc => by simp [hna c hc]) ?_
    rcases hrest with h | ⟨c, t, h, hc⟩
    · exact Or.inl h
    · exact Or.inr ⟨c, t, h, by simp [hc]⟩
  have hcat : scanVerbArg ['c', 'a', 't']
      ('c' :: 'a' :: 't' :: (ws ++ a0 :: (a' ++ rest))) = some (a0 :: a') := by
    show (match (ws ++ a0 :: (a' ++ rest)).dropWhile isspace with
      | [] => none
      | c :: cs => some ((c :: cs).takeWhile (fun x => !isspace x))) = some (a0 :: a')
    rw [hdrop]
    show some (List.takeWhile (fun x => !isspace x) (a0 :: (a' ++ rest))) = some (a0 :: a')
    rw [htake]
  have hcd : scanVerbArg ['c', 'd']
      ('c' :: 'a' :: 't' :: (ws ++ a0 :: (a' ++ rest))) = none := rfl
  have hbuf : ("cat".toList ++ ws ++ (a0 :: a') ++ rest : List Char)
      = 'c' :: 'a' :: 't' :: (ws ++ a0 :: (a' ++ rest)) := by simp
  rw [hbuf]
  simp [dispatchLine, execute_command, hcd, hcat]

/-- C2 amended, witness: the line `cat x y` is dispatched to the `cat`
handler with argument `x`, the trailing token `y` ignored. -/
theorem cat_literal_prefix_dispatch_witness :
    dispatchLine ("cat".toList ++ [' '] ++ "x".toList ++ " y".toList)
      = Cmd.cat "x".toList :=
  cat_literal_prefix_dispatch [' '] "x".toList " y".toList
    (by decide) (by decide) (by decide)
    (Or.inr ⟨' ', "y".toList, rfl, by decide⟩)

/-- C3: a directory stream with one entry whose `lstat` fails (error code
2, the entry is skipped with a warning) followed by clean exhaustion makes
`do_ls` return -1 with the `Error reading directory` diagnostic — the
`errno` left behind by the skipped entry's failed `lstat` defeats the
post-loop `errno != 0` stream-error check, so the clean exhaustion is not
reported as `Success` as the claim requires. -/
theorem ls_skipped_entry_spoils_success :
    (do_ls (some ⟨[LsEnt.statFail "gone".toList 2], none⟩) true "d".toList
        emptyWorld).2 = -1 ∧
    ((do_ls (some ⟨[LsEnt.statFail "gone".toList 2], none⟩) true "d".toList
        emptyWorld).1).err
      = [Msg.lsLstatErr "d/gone".toList, Msg.lsReadErr "d".toList] := by decide

/-- C4: a failing `stat` invocation writes its diagnostic with
`fprintf(stdout, ...)`: the message lands on the standard output stream and
the separate error stream stays empty, contradicting the claim that every
failure diagnostic goes to the error stream. -/
theorem stat_failure_reported_on_stdout :
    (do_stat none "f".toList emptyWorld).2 = -1 ∧
    ((do_stat none "f".toList emptyWorld).1).out = [Msg.statErrOut "f".toList] ∧
    ((do_stat none "f".toList emptyWorld).1).err = [] := by decide

/-- C5: the input line `rmdir` with no argument is dispatched to the `rm`
handler with argument `dir` — `sscanf(buffer, "rmdir %s", filename)` fails
for lack of a token, but the later `sscanf(buffer, "rm %s", filename)`
matches `rm` as a literal prefix and captures `dir`.  When a file named
`dir` exists in the working directory the `unlink` succeeds, so the command
returns 0 (`Success`) and mutates the filesystem, against all three parts
of the claim. -/
theorem bare_rmdir_invokes_rm :
    dispatchLine "rmdir".toList = Cmd.rm "dir".toList ∧
    (applyCmd defaultEnv (dispatchLine "rmdir".toList) emptyWorld).2 = 0 := by decide

/-- C6: when the first `read` fails, `do_cat` takes the `countr < 0` branch
and returns -1 without closing `sourcefd`: the descriptor opened for the
file is not released on the read-error exit path. -/
theorem cat_read_error_leaks_descriptor :
    (do_cat true true ⟨[], true⟩ "f".toList emptyWorld).2.2 = false := by decide

/-- C7: the bare line `cd` dispatches to the change-directory handler with
the empty argument, and `do_cd` with an empty argument targets the home
directory delivered by the user-database lookup for the current user ID
(the `home` parameter models `getpwuid(getuid())->pw_dir`): whenever the
`chdir` to that home directory succeeds, the handler returns 0 and the
process working directory becomes the home directory. -/
theorem cd_without_argument_goes_home (home : List Char) (ok : List Char → Bool)
    (w : World) (h : ok home = true) :
    dispatchLine "cd".toList = Cmd.cd [] ∧
    do_cd home ok [] w = ({ w with cwd := home }, 0) := by
  refine ⟨by decide, ?_⟩
  simp [do_cd, h]

/-- C7 witness: with home directory `/root` and a succeeding `chdir`, the
bare `cd` line changes the working directory to `/root` with result 0. -/
theorem cd_without_argument_goes_home_witness :
    dispatchLine "cd".toList = Cmd.cd [] ∧
    do_cd "/root".toList (fun _ => true) [] emptyWorld
      = ({ emptyWorld with cwd := "/root".toList }, 0) :=
  cd_without_argument_goes_home "/root".toList (fun _ => true) emptyWorld rfl

/-- C8: over any sequence of input lines and any outcomes of the handlers'
OS calls (the `env` oracle — in particular any pattern of handler
failures), the dispatch loop is still running after the whole sequence if
and only if no line normalized to the exit command, and whenever it does
terminate the exit status is 0 (`EXIT_SUCCESS`).  Handler results are
discarded by the loop, so a `Failure` can never terminate it. -/
theorem loop_terminates_only_on_exit (env : Env) (lines : List (List Char))
    (w : World) :
    (∀ s, (runShell env lines w).1 = some s → s = 0) ∧
    ((runShell env lines w).1 = none ↔
      ∀ l ∈ lines, dispatchLine (strip_trailing_whitespace l) ≠ Cmd.exitSh) := by
  induction lines generalizing w with
  | nil => simp [runShell]
  | cons l ls ih =>
    by_cases h : dispatchLine (strip_trailing_whitespace l) = Cmd.exitSh
    · refine ⟨?_, ?_⟩
      · intro s hs
        simp [runShell, h] at hs
        exact hs.symm
      · simp [runShell, h]
    · have hstep : runShell env (l :: ls) w
          = runShell env ls (applyCmd env (dispatchLine (strip_trailing_whitespace l)) w).1 := by
        simp [runShell, h]
      rw [hstep]
      refine ⟨(ih _).1, ?_⟩
      rw [(ih _).2]
      simp [h]

/-- C8 witness: on the single input line `exit`, the loop terminates with
exit status 0, and the termination condition names exactly the exit line. -/
theorem loop_terminates_only_on_exit_witness :
    (∀ s, (runShell defaultEnv ["exit".toList] emptyWorld).1 = some s → s = 0) ∧
    ((runShell defaultEnv ["exit".toList] emptyWorld).1 = none ↔
      ∀ l ∈ ["exit".toList],
        dispatchLine (strip_trailing_whitespace l) ≠ Cmd.exitSh) :=
  loop_terminates_only_on_exit defaultEnv ["exit".toList] emptyWorld

/-- C9: running any dispatched command other than `cd` — the other
handlers, the unknown-verb report and the silent empty line — leaves the
process working directory unchanged, for every environment of OS-call
outcomes: `do_cd` (reached only from `Cmd.cd`) is the only operation that
mutates it. -/
theorem only_cd_changes_cwd (env : Env) (c : Cmd) (w : World)
    (h : ∀ a, c ≠ Cmd.cd a) :
    ((applyCmd env c w).1).cwd = w.cwd := by
  cases c with
  | cd a => exact absurd rfl (h a)
  | exitSh => rfl
  | cat a =>
    show ((do_cat (env.catOpenOk a) (env.catCloseOk a) (env.catReads a) a w).1).cwd
      = w.cwd
    unfold do_cat
    cases hopen : env.catOpenOk a with
    | false => simp
    | true =>
      simp only [if_true]
      have hc := catLoop_cwd a (env.catReads a).chunks (env.catReads a).endErr w
      rcases hr : catLoop a (env.catReads a).chunks (env.catReads a).endErr w with ⟨w1, ce⟩
      rw [hr] at hc
      cases ce with
      | readErr => simpa using hc
      | eof => cases env.catCloseOk a <;> simpa using hc
  | stat a =>
    show ((do_stat (env.statRes a) a w).1).cwd = w.cwd
    cases env.statRes a <;> rfl
  | mkdir a =>
    show ((do_mkdir (env.mkdirOk a) a w).1).cwd = w.cwd
    unfold do_mkdir
    cases env.mkdirOk a <;> simp
  | rmdir a =>
    show ((do_rmdir (env.rmdirOk a) a w).1).cwd = w.cwd
    unfold do_rmdir
    cases env.rmdirOk a <;> simp
  | rm a =>
    show ((do_rm (env.rmOk a) a w).1).cwd = w.cwd
    unfold do_rm
    cases env.rmOk a <;> simp
  | ls a =>
    show ((do_ls (env.lsOpen a) (env.lsCloseOk a) a w).1).cwd = w.cwd
    unfold do_ls
    cases env.lsOpen a with
    | none => simp
    | some s =>
      have hi := lsIter_cwd (if a.length = 0 then ".".toList else a) s.entries w
      cases s.endErr <;> cases env.lsCloseOk a <;>
        simp_all <;> split <;> simp_all
  | pwd =>
    show ((do_pwd env.getcwdOk w).1).cwd = w.cwd
    unfold do_pwd
    cases env.getcwdOk <;> simp
  | invalid b => rfl
  | silent => rfl

/-- C9 witness: the `pwd` command (not a `cd`) leaves the working
directory unchanged. -/
theorem only_cd_changes_cwd_witness :
    ((applyCmd defaultEnv Cmd.pwd emptyWorld).1).cwd = emptyWorld.cwd :=
  only_cd_changes_cwd defaultEnv Cmd.pwd emptyWorld (fun _ h => Cmd.noConfusion h)

/-- C10: on the empty input line, `strnlen` is 0, so the scan of
`strip_trailing_whitespace` starts at index `0 - 1 = -1`: the very first
loop test reads the byte at index -1, below the buffer.  Likewise on the
all-whitespace line a bare `fgets` newline delivers, the scan clears index
0 and then tests index -1.  Both contradict the claim that every access
stays within `[0, length)`.  (`memZero` models the memory around the
static buffer in the running program, whose bytes are 0; the second memory
additionally holds the newline at index 0.) -/
theorem strip_reads_below_buffer_on_empty_line :
    (-1 : Int) ∈ stripScanTrace memZero 1 ((strnlen ([] : List Char) 256 : Int) - 1) ∧
    (-1 : Int) ∈ stripScanTrace (fun i => if i = 0 then '\n' else Char.ofNat 0) 2
      ((strnlen ['\n'] 256 : Int) - 1) := by
  decide

end MyShell
